import Mathlib

/-!
Shallow embedding of the driving-theory quiz bot core
(repository `yowmamasita/driving-theory`, directory `driving-theory-bot/src`).

Python floats are modelled as rationals (`ℚ`), Python ints as `ℤ`,
Python strings as `String` (compared through their character lists where the
source manipulates characters), wall-clock instants as rationals (days for the
spaced-repetition tables, seconds for the rate limiter, matching the unit each
source file computes in).  Randomness (`random.choice`) is modelled by an
explicit oracle `pick : ℕ` indexing into the candidate list.
-/

namespace DrivingTheory

/-! ### Python `int()` truncation -/

/-- Python `int(q)` on a float: truncation toward zero. -/
def pyInt (q : ℚ) : ℤ := if q < 0 then -⌊-q⌋ else ⌊q⌋

/-! ### Spaced-repetition scheduler (`src/utils/spaced_repetition.py`) -/

def MIN_EASE_FACTOR : ℚ := 13/10
def MAX_EASE_FACTOR : ℚ := 3
def EASE_INCREMENT : ℚ := 1/10
def EASE_DECREMENT : ℚ := 1/5

/-- `SpacedRepetitionCalculator.calculate_next_interval`
(`src/utils/spaced_repetition.py`, lines 12-37).
Returns `(new_interval, new_ease_factor, new_repetition_count)`. -/
def calculate_next_interval (current_interval : ℤ) (ease_factor : ℚ)
    (is_correct : Bool) (repetition_count : ℤ) : ℤ × ℚ × ℤ :=
  if is_correct then
    let new_ease_factor := min (ease_factor + EASE_INCREMENT) MAX_EASE_FACTOR
    let new_repetition_count := repetition_count + 1
    let new_interval :=
      if repetition_count = 0 then 1
      else if repetition_count = 1 then 3
      else max 1 (pyInt ((current_interval : ℚ) * new_ease_factor))
    (new_interval, new_ease_factor, new_repetition_count)
  else
    let new_ease_factor := max (ease_factor - EASE_DECREMENT) MIN_EASE_FACTOR
    (1, new_ease_factor, 0)

/-- The in-line recomputation performed by
`DatabaseManager.update_spaced_repetition` on an existing row
(`src/database/db_manager.py`, lines 248-263): the ease factor is updated
first and the interval then uses the updated ease factor; there is no
special-casing of repetition counts 0 and 1.
Returns `(interval_days, ease_factor, repetition_count)`. -/
def sr_inline_update (interval_days : ℤ) (ease_factor : ℚ)
    (repetition_count : ℤ) (is_correct : Bool) : ℤ × ℚ × ℤ :=
  if is_correct then
    let e := min (ease_factor + 1/10) 3
    let i := max 1 (pyInt ((interval_days : ℚ) * e))
    (i, e, repetition_count + 1)
  else
    (1, max (ease_factor - 1/5) (13/10), 0)

/-! ### Rate limiter (`src/utils/rate_limiter.py`) -/

structure Bucket where
  tokens : ℚ
  last_update : ℚ
deriving DecidableEq, Repr

structure RateLimiterCfg where
  rate : ℚ
  window : ℚ
  burst : ℚ
deriving DecidableEq, Repr

/-- A bucket freshly created by the `defaultdict` factory
(`rate_limiter.py`, line 25): it starts with `rate` tokens, not `burst`. -/
def freshBucket (rl : RateLimiterCfg) (now : ℚ) : Bucket :=
  { tokens := rl.rate, last_update := now }

/-- `RateLimiter.check_rate_limit` (`rate_limiter.py`, lines 43-59), acting on
one user's bucket at wall-clock instant `now` (seconds). -/
def check_rate_limit (rl : RateLimiterCfg) (b : Bucket) (now : ℚ) : Bool × Bucket :=
  let time_passed := now - b.last_update
  let tokens := min rl.burst (b.tokens + (time_passed / rl.window) * rl.rate)
  if 1 ≤ tokens then (true, { tokens := tokens - 1, last_update := now })
  else (false, { tokens := tokens, last_update := now })

/-- Run a sequence of `check_rate_limit` calls at the given instants. -/
def run_checks (rl : RateLimiterCfg) (b : Bucket) : List ℚ → List Bool × Bucket
  | [] => ([], b)
  | t :: ts =>
    let r := check_rate_limit rl b t
    let rest := run_checks rl r.2 ts
    (r.1 :: rest.1, rest.2)

/-- The production configuration (`rate_limiter.py` defaults and
`main_optimized.py`): 10 requests per 60-second window, burst 15. -/
def prodLimiter : RateLimiterCfg := { rate := 10, window := 60, burst := 15 }

/-! ### Persistence engine state (`src/database/db_manager.py`) -/

/-- A row of the `question_attempts` table (also the shape of a batch-queue
entry enqueued by `record_question_attempt`). -/
structure Attempt where
  user : ℤ
  question_id : String
  language : String
  is_correct : Bool
  time_taken_seconds : Option ℤ
  timestamp : ℚ
deriving DecidableEq, Repr

/-- A row of the `spaced_repetition` table. -/
structure SRRow where
  user : ℤ
  question_id : String
  language : String
  repetition_count : ℤ
  ease_factor : ℚ
  interval_days : ℤ
  next_review : ℚ
  last_reviewed : ℚ
deriving DecidableEq, Repr

/-- A row of the `user_sessions` table. -/
structure SessionRow where
  user : ℤ
  current_question_id : String
  language : String
  question_start_time : Option ℚ
  awaiting_answer : Bool
  updated_at : ℚ
deriving DecidableEq, Repr

/-- The durable + queued state owned by `DatabaseManager`.  `user_totals` is
the `total_questions_answered` column of the `users` table, as an association
list keyed by telegram id. -/
structure DbState where
  batch_queue : List Attempt
  attempts_table : List Attempt
  user_totals : List (ℤ × ℤ)
  sr_rows : List SRRow
  sessions : List SessionRow
deriving DecidableEq, Repr

/-- `DatabaseManager.record_question_attempt` (lines 148-166): appends one
entry to the in-memory batch queue and performs no durable write. -/
def record_question_attempt (db : DbState) (a : Attempt) : DbState :=
  { db with batch_queue := db.batch_queue ++ [a] }

/-- The per-user counts accumulated by `_flush_batch` (lines 200-204):
a dict from user id to the number of attempts in the batch. -/
def userCounts (batch : List Attempt) : List (ℤ × ℕ) :=
  batch.foldl
    (fun acc a =>
      if acc.any (fun p => decide (p.1 = a.user)) then
        acc.map (fun p => if p.1 = a.user then (p.1, p.2 + 1) else p)
      else acc ++ [(a.user, 1)])
    []

/-- One `UPDATE users SET total_questions_answered = ... + ?` statement:
rows for other users (and absent rows) are untouched. -/
def applyTotal (totals : List (ℤ × ℤ)) (u : ℤ) (c : ℕ) : List (ℤ × ℤ) :=
  totals.map (fun p => if p.1 = u then (p.1, p.2 + (c : ℤ)) else p)

/-- `DatabaseManager._flush_batch` (lines 179-210): drains the queue, inserts
every queued attempt into `question_attempts` in one multi-row insert, then
applies one aggregated counter update per user. -/
def flush_batch (db : DbState) : DbState :=
  if db.batch_queue = [] then db
  else
    { db with
      batch_queue := [],
      attempts_table := db.attempts_table ++ db.batch_queue,
      user_totals :=
        (userCounts db.batch_queue).foldl
          (fun ts p => applyTotal ts p.1 p.2) db.user_totals }

/-- `DatabaseManager.get_user_statistics` (lines 212-224): a single aggregate
over `question_attempts`; returns `(total_attempts, correct_answers)`. -/
def get_user_statistics (db : DbState) (u : ℤ) : ℕ × ℕ :=
  let rows := db.attempts_table.filter (fun a => decide (a.user = u))
  (rows.length, (rows.filter (fun a => a.is_correct)).length)

/-- `DatabaseManager.update_spaced_repetition` (lines 226-272).  Absent rows
are inserted with the schema defaults (repetition 0, ease 2.5, interval 1) and
`next_review = now + 1` day; existing rows are rewritten with the in-line
recomputation `sr_inline_update`.  Time is measured in days. -/
def update_spaced_repetition (db : DbState) (user : ℤ) (qid lang : String)
    (is_correct : Bool) (now : ℚ) : DbState :=
  match db.sr_rows.find? (fun r =>
      decide (r.user = user) && (r.question_id == qid) && (r.language == lang)) with
  | none =>
      { db with sr_rows := db.sr_rows ++
          [{ user := user, question_id := qid, language := lang,
             repetition_count := 0, ease_factor := 5/2, interval_days := 1,
             next_review := now + 1, last_reviewed := now }] }
  | some r =>
      let t := sr_inline_update r.interval_days r.ease_factor r.repetition_count is_correct
      { db with sr_rows := db.sr_rows.map (fun r' =>
          if r'.user = user ∧ r'.question_id = qid ∧ r'.language = lang then
            { r' with repetition_count := t.2.2, ease_factor := t.2.1,
                      interval_days := t.1, next_review := now + (t.1 : ℚ),
                      last_reviewed := now }
          else r') }

/-- The earliest element of a list of rows by `next_review` (first one on
ties), modelling `ORDER BY next_review ASC LIMIT 1`. -/
def minByNextReview : List SRRow → Option SRRow
  | [] => none
  | r :: rs =>
    match minByNextReview rs with
    | none => some r
    | some m => if r.next_review ≤ m.next_review then some r else some m

/-- `DatabaseManager.get_next_question_for_review` (lines 274-287): the
question id of the due row (`next_review ≤ now`) with the earliest
`next_review`, or `none`. -/
def get_next_question_for_review (db : DbState) (user : ℤ) (lang : String)
    (now : ℚ) : Option String :=
  let due := db.sr_rows.filter (fun r =>
    decide (r.user = user) && (r.language == lang) && decide (r.next_review ≤ now))
  (minByNextReview due).map (fun r => r.question_id)

/-- Order-preserving de-duplication with an explicit seen set, as in
`SELECT DISTINCT` (keep first) and `parse_answer_text`'s dedup loop. -/
def dedupSeen {α : Type} [DecidableEq α] : List α → List α → List α
  | _, [] => []
  | seen, a :: as =>
    if a ∈ seen then dedupSeen seen as else a :: dedupSeen (a :: seen) as

/-- `DatabaseManager.get_attempted_questions` (lines 289-303): distinct
question ids of the user's attempts in that language, most recent first,
capped at 1000. -/
def get_attempted_questions (db : DbState) (user : ℤ) (lang : String) : List String :=
  (dedupSeen []
    (((db.attempts_table.filter (fun a =>
        decide (a.user = user) && (a.language == lang))).reverse).map
      (fun a => a.question_id))).take 1000

/-- `DatabaseManager.save_user_session` (lines 305-319): single-row upsert. -/
def save_user_session (db : DbState) (u : ℤ) (qid lang : String)
    (start : Option ℚ) (awaiting : Bool) (now : ℚ) : DbState :=
  { db with sessions := db.sessions.filter (fun s => decide (s.user ≠ u)) ++
      [{ user := u, current_question_id := qid, language := lang,
         question_start_time := start, awaiting_answer := awaiting,
         updated_at := now }] }

/-- `DatabaseManager.get_user_session` (lines 321-328). -/
def get_user_session (db : DbState) (u : ℤ) : Option SessionRow :=
  db.sessions.find? (fun s => decide (s.user = u))

/-- `DatabaseManager.clear_user_session` (lines 330-335). -/
def clear_user_session (db : DbState) (u : ℤ) : DbState :=
  { db with sessions := db.sessions.filter (fun s => decide (s.user ≠ u)) }

/-! ### Question catalog (`src/utils/question_loader.py`) -/

/-- The canonical question shape produced by `_load_questions_sync`.  Only the
fields the claims touch are carried; `is_review` is the transient flag set by
`_get_next_question`. -/
structure Question where
  id : String
  options : List String
  correctAnswers : List String
  explanation : String
  is_review : Bool := false
deriving DecidableEq, Repr

/-- `QuestionLoader._get_question_pool` (lines 117-131) without an
`exclude_hash` (no caller passes one): the per-language pool, `mixed` being
the concatenation of the two pools. -/
def get_question_pool (en de : List Question) (language : String) : List Question :=
  if language == "deutsch" then de
  else if language == "mixed" then en ++ de
  else en

/-- `QuestionLoader.get_random_question` (lines 133-158).  The filter is
applied only when the exclusion list is non-empty and shorter than 100
entries; a filter that empties the pool is reset to the full pool; the final
`random.choice` is modelled by indexing with the oracle `pick`. -/
def get_random_question (en de : List Question) (language : String)
    (exclude_ids : List String) (pick : ℕ) : Option Question :=
  let questions := get_question_pool en de language
  if questions = [] then none
  else
    let available :=
      if exclude_ids ≠ [] ∧ exclude_ids.length < 100 then
        let filtered := questions.filter (fun q => decide (q.id ∉ exclude_ids))
        if filtered = [] then questions else filtered
      else questions
    available.get? (pick % available.length)

/-- `QuestionLoader.get_question_by_id` (lines 160-172): O(1) index lookup
with fallback to any available language.  The index (built english first,
then deutsch) is modelled as a first-match scan of each pool. -/
def get_question_by_id (en de : List Question) (qid : String)
    (language : String) : Option Question :=
  let enQ := en.find? (fun q => q.id == qid)
  let deQ := de.find? (fun q => q.id == qid)
  if language == "deutsch" then deQ <|> enQ
  else enQ <|> deQ

/-! ### Quiz handler (`src/handlers/quiz_handler.py`) -/

/-- Python `str.lower`, on the character list. -/
def pyLower (s : String) : List Char := s.toList.map Char.toLower

/-- The normalization of `_process_text_answer` (lines 557, 581):
`replace(' ', '').replace(',', '.')` on the character list. -/
def normalize_chars (s : String) : List Char :=
  (s.toList.filter (fun c => decide (c ≠ ' '))).map
    (fun c => if c = ',' then '.' else c)

/-- The fill-in-the-blank match of `_process_text_answer` (lines 563-586):
some stored non-empty correct answer equals the user's text after
normalization, case-insensitively. -/
def text_answer_correct (user_answer : String) (correct_answers : List String) : Bool :=
  correct_answers.any (fun ca =>
    decide (ca ≠ "") &&
      ((normalize_chars ca).map Char.toLower
        == (normalize_chars user_answer).map Char.toLower))

/-- `QuizHandler.parse_answer_text` (lines 369-395): `none` for the skip
token, otherwise the de-duplicated indices of the letters `A`-`Z` appearing
in the upper-cased text. -/
def parse_answer_text (text : String) : Option (List ℕ) :=
  if pyLower text = "skip".toList then none
  else
    let letters := (text.toList.map Char.toUpper).filter
      (fun c => decide ('A' ≤ c) && decide (c ≤ 'Z'))
    some (dedupSeen [] (letters.map (fun c => c.toNat - 'A'.toNat)))

/-- The in-memory side of `QuizHandler`: transient per-user mirrors plus the
lock table (`_user_locks` is modelled by its key set; a user id is present
exactly when the dict holds a lock instance for it). -/
structure HandlerState where
  db : DbState
  active_questions : List (ℤ × Question)
  question_start_times : List (ℤ × ℚ)
  awaiting_answer : List ℤ
  user_locks : List ℤ
deriving DecidableEq, Repr

/-- Dict lookup for the per-user association lists. -/
def lookupA {α : Type} (l : List (ℤ × α)) (k : ℤ) : Option α :=
  (l.find? (fun p => decide (p.1 = k))).map (fun p => p.2)

/-- Dict assignment for the per-user association lists. -/
def setA {α : Type} (l : List (ℤ × α)) (k : ℤ) (v : α) : List (ℤ × α) :=
  l.filter (fun p => decide (p.1 ≠ k)) ++ [(k, v)]

/-- Dict deletion for the per-user association lists. -/
def delA {α : Type} (l : List (ℤ × α)) (k : ℤ) : List (ℤ × α) :=
  l.filter (fun p => decide (p.1 ≠ k))

/-- Set insertion for `awaiting_answer`. -/
def addUser (aw : List ℤ) (u : ℤ) : List ℤ :=
  if u ∈ aw then aw else u :: aw

/-- Set removal (`if user_id in self.awaiting_answer: ... remove`). -/
def removeUser (aw : List ℤ) (u : ℤ) : List ℤ :=
  aw.filter (fun v => decide (v ≠ u))

/-- `QuizHandler._get_next_question` (lines 127-143): prefer the due
spaced-repetition question when its id resolves through the catalog (marked
`is_review`), otherwise a random draw excluding recently attempted ids. -/
def handler_get_next_question (db : DbState) (en de : List Question)
    (user : ℤ) (language : String) (now : ℚ) (pick : ℕ) : Option Question :=
  match get_next_question_for_review db user language now with
  | some qid =>
    match get_question_by_id en de qid language with
    | some q => some { q with is_review := true }
    | none =>
      (get_random_question en de language
        (get_attempted_questions db user language) pick).map
        (fun q => { q with is_review := false })
  | none =>
    (get_random_question en de language
      (get_attempted_questions db user language) pick).map
      (fun q => { q with is_review := false })

/-- The select-and-install block shared by `send_next_question` (lines
187-212) and the tail of both `_process_answer` (lines 517-532) and
`_process_text_answer` (lines 639-654): select the next question, install it
in the transient mirrors and upsert the session row; with no question
available the state is unchanged (only a message is sent). -/
def install_next_question (en de : List Question) (st : HandlerState)
    (user : ℤ) (language : String) (now : ℚ) (pick : ℕ) : HandlerState :=
  match handler_get_next_question st.db en de user language now pick with
  | none => st
  | some q =>
    { st with
      active_questions := setA st.active_questions user q,
      question_start_times := setA st.question_start_times user now,
      awaiting_answer := addUser st.awaiting_answer user,
      db := save_user_session st.db user q.id language (some now) true now }

/-- `QuizHandler.send_next_question` (lines 187-225). -/
def send_next_question (en de : List Question) (st : HandlerState) (user : ℤ)
    (language : String) (now : ℚ) (pick : ℕ) : HandlerState :=
  install_next_question en de st user language now pick

/-- The lock-table prune at the end of `_process_answer` (lines 543-546):
the entry is deleted based purely on the table size. -/
def prune_locks_by_size (st : HandlerState) (user : ℤ) : HandlerState :=
  { st with user_locks :=
      if user ∈ st.user_locks ∧ st.user_locks.length > 1000 then
        st.user_locks.erase user
      else st.user_locks }

/-- The lock-table prune at the end of `_process_text_answer` (lines
665-668): the entry is deleted when the user has no active question. -/
def prune_locks_inactive (st : HandlerState) (user : ℤ) : HandlerState :=
  { st with user_locks :=
      if user ∈ st.user_locks ∧ lookupA st.active_questions user = none then
        st.user_locks.erase user
      else st.user_locks }

/-- `QuizHandler._process_answer` (lines 447-546), the multiple-choice path:
evaluate by index-set equality, enqueue the attempt, update spaced
repetition, flush, clear the session, select and install the next question,
and finally prune the lock table when it exceeds 1000 entries. -/
def process_answer (en de : List Question) (st : HandlerState) (user : ℤ)
    (selected_indices : List ℕ) (q : Question) (language : String)
    (now : ℚ) (pick : ℕ) : HandlerState :=
  let correct_indices :=
    ((q.options.enum).filter (fun p => decide (p.2 ∈ q.correctAnswers))).map
      (fun p => p.1)
  let is_correct := selected_indices.toFinset = correct_indices.toFinset
  let time_taken := (lookupA st.question_start_times user).map
    (fun t0 => pyInt (now - t0))
  let st1 := { st with question_start_times := delA st.question_start_times user }
  let db1 := record_question_attempt st1.db
    { user := user, question_id := q.id, language := language,
      is_correct := decide is_correct, time_taken_seconds := time_taken,
      timestamp := now }
  let db2 := update_spaced_repetition db1 user q.id language (decide is_correct) now
  let db3 := flush_batch db2
  let st2 := { st1 with db := clear_user_session db3 user,
                        active_questions := delA st1.active_questions user }
  prune_locks_by_size (install_next_question en de st2 user language now pick) user

/-- `QuizHandler._process_text_answer` (lines 548-668), the fill-in path:
same shape as `process_answer` with the normalized text match, and a lock
prune conditioned on the user no longer having an active question. -/
def process_text_answer (en de : List Question) (st : HandlerState) (user : ℤ)
    (user_answer : String) (q : Question) (language : String)
    (now : ℚ) (pick : ℕ) : HandlerState :=
  let is_correct := text_answer_correct user_answer q.correctAnswers
  let time_taken := (lookupA st.question_start_times user).map
    (fun t0 => pyInt (now - t0))
  let st1 := { st with question_start_times := delA st.question_start_times user }
  let db1 := record_question_attempt st1.db
    { user := user, question_id := q.id, language := language,
      is_correct := is_correct, time_taken_seconds := time_taken,
      timestamp := now }
  let db2 := update_spaced_repetition db1 user q.id language is_correct now
  let db3 := flush_batch db2
  let st2 := { st1 with db := clear_user_session db3 user,
                        active_questions := delA st1.active_questions user }
  prune_locks_inactive (install_next_question en de st2 user language now pick) user

/-- `QuizHandler.handle_answer` (lines 397-445): drop the awaiting flag, then
dispatch on skip / multiple-choice / fill-in; an answer with no valid option
letter re-adds the awaiting flag and changes nothing else. -/
def handle_answer (en de : List Question) (st : HandlerState) (user : ℤ)
    (text : String) (language : String) (now : ℚ) (pick : ℕ) : HandlerState :=
  let st1 := { st with awaiting_answer := removeUser st.awaiting_answer user }
  match lookupA st1.active_questions user with
  | none => st1
  | some q =>
    if pyLower text = "skip".toList then
      send_next_question en de st1 user language now pick
    else if q.options ≠ [] then
      match parse_answer_text text with
      | none => send_next_question en de st1 user language now pick
      | some selected =>
        let valid := selected.filter (fun idx => decide (idx < q.options.length))
        if valid = [] then
          { st1 with awaiting_answer := addUser st1.awaiting_answer user }
        else process_answer en de st1 user valid q language now pick
    else process_text_answer en de st1 user text q language now pick

/-- `QuizHandler.handle_skip` (lines 744-787): refuse during the
between-question wait, restore the active question from the session row when
needed (also adopting the session's language), then advance without
recording anything. -/
def handle_skip (en de : List Question) (st : HandlerState) (user : ℤ)
    (language : String) (now : ℚ) (pick : ℕ) : HandlerState :=
  if lookupA st.active_questions user ≠ none ∧ user ∉ st.awaiting_answer then st
  else
    match lookupA st.active_questions user with
    | some _ =>
      send_next_question en de
        { st with awaiting_answer := removeUser st.awaiting_answer user }
        user language now pick
    | none =>
      match get_user_session st.db user with
      | some sess =>
        if sess.current_question_id ≠ "" then
          match get_question_by_id en de sess.current_question_id sess.language with
          | some q =>
            send_next_question en de
              { st with active_questions := setA st.active_questions user q,
                        awaiting_answer := removeUser st.awaiting_answer user }
              user sess.language now pick
          | none => st
        else st
      | none => st

/-! ### Concrete instances used by the counterexamples and witnesses -/

/-- The concrete spaced-repetition row for the C1 counterexample: first
successful review of a freshly initialized record. -/
def c1row : SRRow :=
  { user := 7, question_id := "q1", language := "english",
    repetition_count := 0, ease_factor := 5/2, interval_days := 1,
    next_review := 0, last_reviewed := 0 }

def c1db : DbState :=
  { batch_queue := [], attempts_table := [], user_totals := [],
    sr_rows := [c1row], sessions := [] }

def c3q0 : Question := { id := "a", options := [], correctAnswers := [], explanation := "" }

def c3q1 : Question := { id := "b", options := [], correctAnswers := [], explanation := "" }

def c3exclude : List String := "a" :: List.replicate 99 "z"

def c4q : Question := { id := "a", options := [], correctAnswers := [], explanation := "" }

def c6row : SRRow :=
  { user := 7, question_id := "a", language := "english",
    repetition_count := 0, ease_factor := 5/2, interval_days := 1,
    next_review := 0, last_reviewed := 0 }

def c6db : DbState :=
  { batch_queue := [], attempts_table := [], user_totals := [],
    sr_rows := [c6row], sessions := [] }

def c6q : Question :=
  { id := "a", options := ["x"], correctAnswers := ["x"], explanation := "" }

def c7att : Attempt :=
  { user := 7, question_id := "a", language := "english", is_correct := true,
    time_taken_seconds := none, timestamp := 0 }

def c7db : DbState :=
  { batch_queue := [], attempts_table := [], user_totals := [],
    sr_rows := [], sessions := [] }

def c9q : Question :=
  { id := "a", options := ["x", "y"], correctAnswers := ["x"], explanation := "" }

def c9st : HandlerState :=
  { db := { batch_queue := [], attempts_table := [], user_totals := [],
            sr_rows := [], sessions := [] },
    active_questions := [(7, c9q)],
    question_start_times := [(7, 0)],
    awaiting_answer := [7],
    user_locks := [7] }

def c10locks : List ℤ := (List.range 1001).map Int.ofNat

def c10q : Question :=
  { id := "a", options := ["x", "y"], correctAnswers := ["x"], explanation := "" }

def c10st : HandlerState :=
  { db := { batch_queue := [], attempts_table := [], user_totals := [],
            sr_rows := [], sessions := [] },
    active_questions := [(0, c10q)],
    question_start_times := [],
    awaiting_answer := [],
    user_locks := c10locks }

/-! ### Supporting lemmas -/

/-- Under an outer `max 1`, truncation toward zero agrees with `⌊·⌋`:
both sides are `1` whenever the argument is negative. -/
lemma max_one_pyInt_eq_floor (q : ℚ) : max 1 (pyInt q) = max 1 ⌊q⌋ := by
  unfold pyInt
  by_cases h : q < 0
  · have h1 : (⌊q⌋ : ℤ) ≤ 1 := by
      have : (⌊q⌋ : ℚ) ≤ q := Int.floor_le q
      have : (⌊q⌋ : ℚ) < 1 := lt_of_le_of_lt this (lt_of_lt_of_le h (by norm_num))
      exact_mod_cast le_of_lt this
    have h2 : (-⌊-q⌋ : ℤ) ≤ 1 := by
      have : (0 : ℚ) ≤ -q := by linarith
      have h0 : (0 : ℤ) ≤ ⌊-q⌋ := Int.floor_nonneg.mpr this
      omega
    simp [h, max_eq_left h1, max_eq_left h2]
  · simp [h]

lemma get_some_of_ne_nil (l : List Question) (pick : ℕ) (hl : l ≠ []) :
    (l.get? (pick % l.length)).isSome = true := by
  have hlen : pick % l.length < l.length := Nat.mod_lt _ (List.length_pos.mpr hl)
  rw [List.get?_eq_get hlen]
  rfl

lemma minByNextReview_eq_none {l : List SRRow} :
    minByNextReview l = none ↔ l = [] := by
  cases l with
  | nil => simp [minByNextReview]
  | cons a as =>
    simp only [minByNextReview]
    cases hm : minByNextReview as <;> simp [hm]
    split <;> simp

lemma minByNextReview_mem : ∀ {l : List SRRow} {r : SRRow},
    minByNextReview l = some r → r ∈ l := by
  intro l
  induction l with
  | nil => intro r h; cases h
  | cons a as ih =>
    intro r h
    simp only [minByNextReview] at h
    cases hm : minByNextReview as with
    | none =>
      simp only [hm] at h
      injection h with h'
      subst h'
      exact List.mem_cons_self a as
    | some m =>
      simp only [hm] at h
      by_cases hle : a.next_review ≤ m.next_review
      · rw [if_pos hle] at h
        injection h with h'
        subst h'
        exact List.mem_cons_self a as
      · rw [if_neg hle] at h
        injection h with h'
        subst h'
        exact List.mem_cons_of_mem a (ih hm)

lemma minByNextReview_le : ∀ {l : List SRRow} {r : SRRow},
    minByNextReview l = some r →
    ∀ r' ∈ l, r.next_review ≤ r'.next_review := by
  intro l
  induction l with
  | nil => intro r h; cases h
  | cons a as ih =>
    intro r h r' hr'
    simp only [minByNextReview] at h
    cases hm : minByNextReview as with
    | none =>
      simp only [hm] at h
      injection h with h'
      subst h'
      rcases List.mem_cons.mp hr' with h1 | h1
      · subst h1; exact le_refl _
      · exact absurd (minByNextReview_eq_none.mp hm ▸ h1) (List.not_mem_nil r')
    | some m =>
      simp only [hm] at h
      by_cases hle : a.next_review ≤ m.next_review
      · rw [if_pos hle] at h
        injection h with h'
        subst h'
        rcases List.mem_cons.mp hr' with h1 | h1
        · subst h1; exact le_refl _
        · exact le_trans hle (ih hm r' h1)
      · rw [if_neg hle] at h
        injection h with h'
        subst h'
        rcases List.mem_cons.mp hr' with h1 | h1
        · subst h1; exact le_of_lt (lt_of_not_le hle)
        · exact ih hm r' h1

lemma minByNextReview_isSome {l : List SRRow} (h : l ≠ []) :
    ∃ m, minByNextReview l = some m := by
  cases hm : minByNextReview l with
  | none => exact absurd (minByNextReview_eq_none.mp hm) h
  | some m => exact ⟨m, rfl⟩

lemma foldl_record (db : DbState) (qas : List Attempt) :
    qas.foldl record_question_attempt db =
      { db with batch_queue := db.batch_queue ++ qas } := by
  induction qas generalizing db with
  | nil => simp
  | cons a as ih =>
    simp only [List.foldl_cons]
    rw [ih]
    simp [record_question_attempt]

lemma send_next_question_db_frame (en de : List Question) (st : HandlerState)
    (user : ℤ) (lang : String) (now : ℚ) (pick : ℕ) :
    (send_next_question en de st user lang now pick).db.attempts_table
        = st.db.attempts_table
    ∧ (send_next_question en de st user lang now pick).db.batch_queue
        = st.db.batch_queue
    ∧ (send_next_question en de st user lang now pick).db.sr_rows
        = st.db.sr_rows
    ∧ (send_next_question en de st user lang now pick).db.user_totals
        = st.db.user_totals := by
  simp only [send_next_question, install_next_question]
  cases handler_get_next_question st.db en de user lang now pick <;>
    simp [save_user_session]

lemma process_answer_user_locks (en de : List Question) (st : HandlerState)
    (user : ℤ) (selected : List ℕ) (q : Question) (language : String)
    (now : ℚ) (pick : ℕ) :
    (process_answer en de st user selected q language now pick).user_locks
      = if user ∈ st.user_locks ∧ st.user_locks.length > 1000
        then st.user_locks.erase user else st.user_locks := by
  have hinstall : ∀ (st' : HandlerState),
      (install_next_question en de st' user language now pick).user_locks
        = st'.user_locks := by
    intro st'
    simp only [install_next_question]
    split <;> rfl
  simp only [process_answer, prune_locks_by_size, hinstall]

/-! ### Claim theorems -/

/-- C1 counterexample: on a correct answer with repetition count 0 the row
written back has interval 2, while the Scheduler returns interval 1. -/
theorem c1_counterexample :
    (update_spaced_repetition c1db 7 "q1" "english" true 0).sr_rows =
      [{ user := 7, question_id := "q1", language := "english",
         repetition_count := 1, ease_factor := 13/5, interval_days := 2,
         next_review := 2, last_reviewed := 0 }]
    ∧ calculate_next_interval 1 (5/2) true 0 = (1, 13/5, 1)
    ∧ (2 : ℤ) ≠ (calculate_next_interval 1 (5/2) true 0).1 := by
  refine ⟨?_, ?_, ?_⟩ <;>
    norm_num [update_spaced_repetition, c1db, c1row, sr_inline_update, pyInt,
      calculate_next_interval, EASE_INCREMENT, MAX_EASE_FACTOR, min_def,
      List.find?]

/-- C1 amended: characterization of the in-line recomputation, and agreement
with the Scheduler exactly on incorrect answers or repetition counts ≥ 2. -/
theorem c1_inline_update_characterization (i : ℤ) (e : ℚ) (r : ℤ) (c : Bool) :
    sr_inline_update i e r c =
      (if c then (max 1 ⌊(i : ℚ) * min (e + 1/10) 3⌋, min (e + 1/10) 3, r + 1)
       else (1, max (e - 1/5) (13/10), 0))
    ∧ ((c = false ∨ (r ≠ 0 ∧ r ≠ 1)) →
        sr_inline_update i e r c = calculate_next_interval i e c r) := by
  constructor
  · cases c <;>
      simp only [sr_inline_update, max_one_pyInt_eq_floor, if_true, if_false,
        Bool.false_eq_true, cond_false, cond_true, ite_true, ite_false]
  · rintro (hc | ⟨h0, h1⟩)
    · subst hc
      simp [sr_inline_update, calculate_next_interval, EASE_DECREMENT, MIN_EASE_FACTOR]
    · cases c
      · simp [sr_inline_update, calculate_next_interval, EASE_DECREMENT, MIN_EASE_FACTOR]
      · simp [sr_inline_update, calculate_next_interval, EASE_INCREMENT,
          MAX_EASE_FACTOR, h0, h1]

theorem c1_inline_witness :
    ((true : Bool) = false ∨ ((5 : ℤ) ≠ 0 ∧ (5 : ℤ) ≠ 1)) ∧
      sr_inline_update 4 2 5 true = calculate_next_interval 4 2 true 5 :=
  ⟨Or.inr ⟨by norm_num, by norm_num⟩,
    (c1_inline_update_characterization 4 2 5 true).2
      (Or.inr ⟨by norm_num, by norm_num⟩)⟩

/-- C2: full characterization of `calculate_next_interval` plus ease bounds. -/
theorem c2_calculate_next_interval_correct (i : ℤ) (e : ℚ) (r : ℤ) :
    calculate_next_interval i e true r =
      ((if r = 0 then 1 else if r = 1 then 3
        else max 1 ⌊(i : ℚ) * min (e + 1/10) 3⌋),
       min (e + 1/10) 3, r + 1)
    ∧ calculate_next_interval i e false r = (1, max (e - 1/5) (13/10), 0)
    ∧ (e ≤ 3 → e ≤ (calculate_next_interval i e true r).2.1
          ∧ (calculate_next_interval i e true r).2.1 ≤ 3)
    ∧ (13/10 : ℚ) ≤ (calculate_next_interval i e false r).2.1
    ∧ (calculate_next_interval i e false r).2.2 = 0
    ∧ (calculate_next_interval i e false r).1 = 1 := by
  refine ⟨?_, ?_, ?_, ?_, ?_, ?_⟩
  · simp only [calculate_next_interval, EASE_INCREMENT, MAX_EASE_FACTOR,
      max_one_pyInt_eq_floor, if_true]
  · simp [calculate_next_interval, EASE_DECREMENT, MIN_EASE_FACTOR]
  · intro h
    constructor
    · simp only [calculate_next_interval, EASE_INCREMENT, MAX_EASE_FACTOR]
      exact le_min (by linarith) h
    · simp only [calculate_next_interval, EASE_INCREMENT, MAX_EASE_FACTOR]
      exact min_le_right _ _
  · simp only [calculate_next_interval, EASE_DECREMENT, MIN_EASE_FACTOR]
    exact le_max_right _ _
  · simp [calculate_next_interval]
  · simp [calculate_next_interval]

theorem c2_witness :
    (5/2 : ℚ) ≤ 3 ∧
      ((5/2 : ℚ) ≤ (calculate_next_interval 1 (5/2) true 0).2.1
        ∧ (calculate_next_interval 1 (5/2) true 0).2.1 ≤ 3) :=
  ⟨by norm_num, (c2_calculate_next_interval_correct 1 (5/2) 0).2.2.1 (by norm_num)⟩

/-- C3 counterexample: with a 100-entry exclusion list the filter is skipped
entirely, so the draw can return an excluded question even though a
non-excluded one exists. -/
theorem c3_counterexample :
    c3q1 ∈ get_question_pool [c3q0, c3q1] [] "english"
    ∧ c3q1.id ∉ c3exclude
    ∧ get_random_question [c3q0, c3q1] [] "english" c3exclude 0 = some c3q0
    ∧ c3q0.id ∈ c3exclude := by
  refine ⟨by decide, by decide, by decide, by decide⟩

/-- C3 amended: when the exclusion list is non-empty and shorter than 100
entries and some pool question lies outside it, the draw avoids the
exclusion set for every random outcome. -/
theorem c3_random_question_respects_exclusion (en de : List Question)
    (lang : String) (exclude : List String) (pick : ℕ) (q0 : Question)
    (hne : exclude ≠ []) (hlen : exclude.length < 100)
    (hmem : q0 ∈ get_question_pool en de lang) (hout : q0.id ∉ exclude) :
    ∃ q, get_random_question en de lang exclude pick = some q
      ∧ q.id ∉ exclude := by
  have hq : get_question_pool en de lang ≠ [] := List.ne_nil_of_mem hmem
  simp only [get_random_question]
  rw [if_neg hq, if_pos ⟨hne, hlen⟩]
  have hq0f : q0 ∈ (get_question_pool en de lang).filter
      (fun q => decide (q.id ∉ exclude)) :=
    List.mem_filter.mpr ⟨hmem, by simpa using hout⟩
  have hfne : (get_question_pool en de lang).filter
      (fun q => decide (q.id ∉ exclude)) ≠ [] := List.ne_nil_of_mem hq0f
  rw [if_neg hfne]
  have hlt : pick % ((get_question_pool en de lang).filter
      (fun q => decide (q.id ∉ exclude))).length <
      ((get_question_pool en de lang).filter
        (fun q => decide (q.id ∉ exclude))).length :=
    Nat.mod_lt _ (List.length_pos.mpr hfne)
  refine ⟨_, List.get?_eq_get hlt, ?_⟩
  have hmemf := List.get_mem _ _ hlt
  have := List.mem_filter.mp hmemf
  simpa using this.2

theorem c3_witness :
    ((["a"] : List String) ≠ [] ∧ (["a"] : List String).length < 100
      ∧ c3q1 ∈ get_question_pool [c3q0, c3q1] [] "english"
      ∧ c3q1.id ∉ (["a"] : List String))
    ∧ ∃ q, get_random_question [c3q0, c3q1] [] "english" ["a"] 5 = some q
        ∧ q.id ∉ (["a"] : List String) :=
  ⟨⟨by decide, by decide, by decide, by decide⟩,
    c3_random_question_respects_exclusion [c3q0, c3q1] [] "english" ["a"] 5 c3q1
      (by decide) (by decide) (by decide) (by decide)⟩

/-- C4: a non-empty language pool always yields a question, even when the
exclusion list covers the whole pool. -/
theorem c4_random_question_never_none (en de : List Question) (lang : String)
    (exclude : List String) (pick : ℕ)
    (h : get_question_pool en de lang ≠ []) :
    (get_random_question en de lang exclude pick).isSome = true := by
  simp only [get_random_question]
  rw [if_neg h]
  split_ifs with h1 h2
  · exact get_some_of_ne_nil _ _ h
  · exact get_some_of_ne_nil _ _ h2
  · exact get_some_of_ne_nil _ _ h

theorem c4_witness :
    get_question_pool [c4q] [] "english" ≠ ([] : List Question)
    ∧ (get_random_question [c4q] [] "english" ["a"] 3).isSome = true :=
  ⟨by decide, c4_random_question_never_none _ _ _ ["a"] 3 (by decide)⟩

/-- C5 counterexample: from a fresh bucket, 15 immediate checks yield only 10
admissions — the bucket starts with `rate` (10) tokens, not `burst` (15). -/
theorem c5_counterexample :
    (run_checks prodLimiter (freshBucket prodLimiter 0) (List.replicate 15 0)).1
      = List.replicate 10 true ++ List.replicate 5 false
    ∧ (run_checks prodLimiter (freshBucket prodLimiter 0) (List.replicate 15 0)).1
      ≠ List.replicate 15 true := by
  have h1 : (run_checks prodLimiter (freshBucket prodLimiter 0)
      (List.replicate 15 0)).1
      = List.replicate 10 true ++ List.replicate 5 false := by
    norm_num [run_checks, check_rate_limit, freshBucket, prodLimiter, min_def,
      List.replicate]
  exact ⟨h1, by rw [h1]; decide⟩

/-- C5 amended: 10 consecutive immediate checks succeed and the 11th is
rejected; after 6 idle seconds exactly one more check succeeds. -/
theorem c5_amended_token_bucket :
    (run_checks prodLimiter (freshBucket prodLimiter 0)
        (List.replicate 11 0 ++ [6, 6])).1
      = List.replicate 10 true ++ [false, true, false] := by
  norm_num [run_checks, check_rate_limit, freshBucket, prodLimiter, min_def,
    List.replicate]

/-- C6: whenever a due spaced-repetition row exists for the user and
language, the review query returns the earliest-due row's question id, and
whenever that id resolves through the catalog, `_get_next_question` selects
exactly that question (marked as a review) instead of a random draw. -/
theorem c6_due_question_preferred (db : DbState) (en de : List Question)
    (user : ℤ) (lang : String) (now : ℚ) (pick : ℕ) (r : SRRow)
    (hr : r ∈ db.sr_rows) (hu : r.user = user) (hl : r.language = lang)
    (hdue : r.next_review ≤ now) :
    ∃ r', r' ∈ db.sr_rows ∧ r'.user = user ∧ r'.language = lang
      ∧ r'.next_review ≤ now
      ∧ (∀ r'' ∈ db.sr_rows, r''.user = user → r''.language = lang →
          r''.next_review ≤ now → r'.next_review ≤ r''.next_review)
      ∧ get_next_question_for_review db user lang now = some r'.question_id
      ∧ (∀ q, get_question_by_id en de r'.question_id lang = some q →
          handler_get_next_question db en de user lang now pick
            = some { q with is_review := true }) := by
  have hrdue : r ∈ db.sr_rows.filter (fun x =>
      decide (x.user = user) && (x.language == lang) && decide (x.next_review ≤ now)) := by
    refine List.mem_filter.mpr ⟨hr, ?_⟩
    simp [hu, hl, hdue]
  obtain ⟨m, hm⟩ := minByNextReview_isSome (List.ne_nil_of_mem hrdue)
  have hmmem := minByNextReview_mem hm
  have hmf := List.mem_filter.mp hmmem
  have hprops : m.user = user ∧ m.language = lang ∧ m.next_review ≤ now := by
    have := hmf.2
    simp only [Bool.and_eq_true, decide_eq_true_eq, beq_iff_eq] at this
    exact ⟨this.1.1, this.1.2, this.2⟩
  refine ⟨m, hmf.1, hprops.1, hprops.2.1, hprops.2.2, ?_, ?_, ?_⟩
  · intro r'' hr'' hu'' hl'' hdue''
    refine minByNextReview_le hm r'' (List.mem_filter.mpr ⟨hr'', ?_⟩)
    simp [hu'', hl'', hdue'']
  · simp only [get_next_question_for_review, hm, Option.map_some']
  · intro q hq
    simp only [handler_get_next_question, get_next_question_for_review, hm,
      Option.map_some', hq]

theorem c6_witness :
    c6row ∈ c6db.sr_rows ∧ c6row.user = 7 ∧ c6row.language = "english"
    ∧ c6row.next_review ≤ (0 : ℚ)
    ∧ ∃ r', r' ∈ c6db.sr_rows ∧ r'.user = 7 ∧ r'.language = "english"
        ∧ r'.next_review ≤ (0 : ℚ)
        ∧ (∀ r'' ∈ c6db.sr_rows, r''.user = 7 → r''.language = "english" →
            r''.next_review ≤ (0 : ℚ) → r'.next_review ≤ r''.next_review)
        ∧ get_next_question_for_review c6db 7 "english" 0 = some r'.question_id
        ∧ (∀ q, get_question_by_id [c6q] [] r'.question_id "english" = some q →
            handler_get_next_question c6db [c6q] [] 7 "english" 0 0
              = some { q with is_review := true }) :=
  ⟨by simp [c6db], rfl, rfl, le_of_eq rfl,
    c6_due_question_preferred c6db [c6q] [] 7 "english" 0 0 c6row
      (by simp [c6db]) rfl rfl (le_of_eq rfl)⟩

/-- C7: with an empty queue, enqueuing `n` attempts for a user and flushing
once raises that user's `total_attempts` by exactly `n`, while
`record_question_attempt` alone performs no durable write. -/
theorem c7_batch_flush_exactly_once (db : DbState) (u : ℤ) (qas : List Attempt)
    (hq : db.batch_queue = []) (hu : ∀ a ∈ qas, a.user = u) :
    (get_user_statistics (flush_batch (qas.foldl record_question_attempt db)) u).1
      = (get_user_statistics db u).1 + qas.length
    ∧ ∀ a, (record_question_attempt db a).attempts_table = db.attempts_table
        ∧ (record_question_attempt db a).user_totals = db.user_totals
        ∧ (record_question_attempt db a).sr_rows = db.sr_rows
        ∧ (record_question_attempt db a).sessions = db.sessions := by
  constructor
  · rw [foldl_record, hq]
    by_cases hqas : qas = []
    · subst hqas
      simp [flush_batch, get_user_statistics]
    · simp only [flush_batch, List.nil_append]
      rw [if_neg hqas]
      simp only [get_user_statistics]
      rw [List.filter_append]
      have hfq : qas.filter (fun a => decide (a.user = u)) = qas :=
        List.filter_eq_self.mpr (by intro a ha; simpa using hu a ha)
      simp [hfq]
  · intro a
    simp [record_question_attempt]

theorem c7_witness :
    c7db.batch_queue = [] ∧ (∀ a ∈ [c7att], a.user = 7)
    ∧ (get_user_statistics
        (flush_batch ([c7att].foldl record_question_attempt c7db)) 7).1
      = (get_user_statistics c7db 7).1 + [c7att].length :=
  ⟨rfl, by intro a ha; simp at ha; subst ha; rfl,
    (c7_batch_flush_exactly_once c7db 7 [c7att] rfl
      (by intro a ha; simp at ha; subst ha; rfl)).1⟩

/-- C8: the fill-in match accepts any stored non-empty answer equal to the
user's text after space removal, comma-to-period normalization and
lower-casing; in particular both `"12,5"` and `"12.5"` match `"12.5"`. -/
theorem c8_fill_in_matching :
    (∀ (ua ca : String) (cas : List String), ca ∈ cas → ca ≠ "" →
        (normalize_chars ua).map Char.toLower
          = (normalize_chars ca).map Char.toLower →
        text_answer_correct ua cas = true)
    ∧ text_answer_correct "12,5" ["12.5"] = true
    ∧ text_answer_correct "12.5" ["12.5"] = true := by
  refine ⟨?_, by decide, by decide⟩
  intro ua ca cas hmem hne heq
  simp only [text_answer_correct, List.any_eq_true]
  refine ⟨ca, hmem, ?_⟩
  simp [hne, heq]

theorem c8_witness :
    ("a b c" ∈ ["a b c"] ∧ "a b c" ≠ ""
      ∧ (normalize_chars "AbC").map Char.toLower
          = (normalize_chars "a b c").map Char.toLower)
    ∧ text_answer_correct "AbC" ["a b c"] = true :=
  ⟨⟨by decide, by decide, by decide⟩,
    c8_fill_in_matching.1 "AbC" "a b c" ["a b c"] (by decide) (by decide) (by decide)⟩

/-- C9: a skip (through `handle_answer` or `handle_skip`) leaves the attempt
log, the batch queue and the spaced-repetition table untouched — neither
`record_question_attempt` nor `update_spaced_repetition` runs on that path. -/
theorem c9_skip_records_nothing (en de : List Question) (st : HandlerState)
    (user : ℤ) (text : String) (language : String) (now : ℚ) (pick : ℕ)
    (hskip : pyLower text = "skip".toList) :
    ((handle_answer en de st user text language now pick).db.attempts_table
        = st.db.attempts_table
      ∧ (handle_answer en de st user text language now pick).db.batch_queue
        = st.db.batch_queue
      ∧ (handle_answer en de st user text language now pick).db.sr_rows
        = st.db.sr_rows)
    ∧ ((handle_skip en de st user language now pick).db.attempts_table
        = st.db.attempts_table
      ∧ (handle_skip en de st user language now pick).db.batch_queue
        = st.db.batch_queue
      ∧ (handle_skip en de st user language now pick).db.sr_rows
        = st.db.sr_rows) := by
  constructor
  · simp only [handle_answer]
    split
    · exact ⟨rfl, rfl, rfl⟩
    · rw [if_pos hskip]
      have h := send_next_question_db_frame en de
        { st with awaiting_answer := removeUser st.awaiting_answer user }
        user language now pick
      exact ⟨h.1, h.2.1, h.2.2.1⟩
  · simp only [handle_skip]
    split_ifs with h1
    · exact ⟨rfl, rfl, rfl⟩
    · split
      · have h := send_next_question_db_frame en de
          { st with awaiting_answer := removeUser st.awaiting_answer user }
          user language now pick
        exact ⟨h.1, h.2.1, h.2.2.1⟩
      · split
        · rename_i sess hsess
          split_ifs with h2
          · split
            · rename_i q hq
              have h := send_next_question_db_frame en de
                { st with active_questions := setA st.active_questions user q,
                          awaiting_answer := removeUser st.awaiting_answer user }
                user sess.language now pick
              exact ⟨h.1, h.2.1, h.2.2.1⟩
            · exact ⟨rfl, rfl, rfl⟩
          · exact ⟨rfl, rfl, rfl⟩
        · exact ⟨rfl, rfl, rfl⟩

theorem c9_witness :
    pyLower "Skip" = "skip".toList
    ∧ (handle_answer [c9q] [] c9st 7 "Skip" "english" 0 0).db.attempts_table
        = c9st.db.attempts_table
    ∧ (handle_skip [c9q] [] c9st 7 "english" 0 0).db.sr_rows
        = c9st.db.sr_rows :=
  ⟨by decide,
    (c9_skip_records_nothing [c9q] [] c9st 7 "Skip" "english" 0 0 (by decide)).1.1,
    (c9_skip_records_nothing [c9q] [] c9st 7 "Skip" "english" 0 0 (by decide)).2.2.2⟩

set_option maxRecDepth 8192 in
/-- C10: with 1001 resident locks, `_process_answer` deletes the answering
user's own lock-table entry at the end of its body — i.e. while that user's
handler is still in flight and the corresponding lock is still held. -/
theorem c10_lock_entry_removed_while_in_flight :
    (0 : ℤ) ∈ c10st.user_locks
    ∧ c10st.user_locks.length = 1001
    ∧ (0 : ℤ) ∉
        (process_answer [c10q] [] c10st 0 [0] c10q "english" 0 0).user_locks := by
  have hmem : (0 : ℤ) ∈ c10locks :=
    List.mem_map.mpr ⟨0, List.mem_range.mpr (by norm_num), rfl⟩
  have hlen : c10locks.length = 1001 := by simp [c10locks]
  have hnodup : c10locks.Nodup :=
    (List.nodup_range 1001).map (fun _ _ h => Int.ofNat.inj h)
  refine ⟨hmem, hlen, ?_⟩
  rw [process_answer_user_locks]
  rw [if_pos ⟨hmem, by rw [show c10st.user_locks = c10locks from rfl, hlen]; norm_num⟩]
  intro hmem'
  exact ((List.Nodup.mem_erase_iff hnodup).mp hmem').1 rfl

end DrivingTheory
